import Mathlib

/-
Verification of the IECTranslate session/media-relay orchestration layer.

The Python sources under `app/routes/rtc/` are shallowly embedded below:
  * `room.py` (class `Rooms`)                  -> namespace `Rooms`
  * `web_rtc.py` (class `WebRTCHandler` and
    `AudioPlayerTrack`)                        -> namespace `WebRTC`
  * `audio_player.py` (`_ensure_correct_channels`) -> namespace `AudioPlayer`
  * `web_socket.py` (`websocket_endpoint`,
    `handle_websocket_message`)                -> namespace `WebSocket`

Python dicts/sets are modelled as functions into `Option` / `Finset`;
asynchronous event delivery (ICE candidate callbacks) is modelled as an
explicit time-stamped event list; exceptions are modelled with `Except`
(the error payload is the exception message); numpy float arrays are
modelled as lists of rational-valued sample rows (exact arithmetic in
place of IEEE floats, preserving the source's arithmetic structure).
-/

namespace Rooms

/-- Pointwise update of a string-keyed map, modelling a Python dict write
`d[k] = v` (`v = none` models `del d[k]` / `d.pop(k)`). -/
def upd (k : String) (v : Option (Finset String)) (f : String → Option (Finset String)) :
    String → Option (Finset String) :=
  fun x => if x = k then v else f x

/-- Pointwise update of the peer→room map. -/
def updR (k : String) (v : Option String) (f : String → Option String) :
    String → Option String :=
  fun x => if x = k then v else f x

/-- State of `class Rooms` (room.py): `_peers : room_id -> set(peer_id)`
(a `defaultdict(set)`; `none` = key absent) and `_peer_rooms : peer_id -> room_id`. -/
structure St where
  peers : String → Option (Finset String)
  peerRooms : String → Option String

/-- Model of `Rooms.__init__`: both dicts empty. -/
def init : St := { peers := fun _ => none, peerRooms := fun _ => none }

/-- Member set of a room as seen through `defaultdict` reads (`set()` when absent). -/
def membersOf (s : St) (room_id : String) : Finset String :=
  (s.peers room_id).getD ∅

/-- Step 1 of `Rooms.join` (room.py lines 12-17): remove the peer from its
previous room if any, popping the room when its member set becomes empty. -/
def removeFromOld (s : St) (peer_id : String) : String → Option (Finset String) :=
  match s.peerRooms peer_id with
  | some old_room =>
      match s.peers old_room with
      | some mem =>
          let mem' := mem.erase peer_id
          if mem' = ∅ then upd old_room none s.peers
          else upd old_room (some mem') s.peers
      | none => s.peers
  | none => s.peers

/-- Model of `Rooms.join(room_id, peer_id)` (room.py lines 10-21): remove the peer from
its previous room (dropping that room if it becomes empty), then add the peer to
the new room (creating it via the `defaultdict` if absent) and record the mapping. -/
def join (s : St) (room_id peer_id : String) : St :=
  let peers1 := removeFromOld s peer_id
  -- step 2: self._peers[room_id].add(peer_id); self._peer_rooms[peer_id] = room_id
  { peers := upd room_id (some (insert peer_id ((peers1 room_id).getD ∅))) peers1,
    peerRooms := updR peer_id (some room_id) s.peerRooms }

/-- Model of `Rooms.leave(peer_id)` (room.py lines 23-31). -/
def leave (s : St) (peer_id : String) : St :=
  match s.peerRooms peer_id with
  | some room_id =>
      let peers1 : String → Option (Finset String) :=
        match s.peers room_id with
        | some mem =>
            let mem' := mem.erase peer_id
            if mem' = ∅ then upd room_id none s.peers
            else upd room_id (some mem') s.peers
        | none => s.peers
      { peers := peers1, peerRooms := updR peer_id none s.peerRooms }
  | none => s

/-- Model of `Rooms.others(room_id, peer_id)` (room.py lines 33-34):
`[p for p in self._peers[room_id] if p != peer_id]`.  The subscript read on the
`defaultdict` inserts an empty set when the key is absent, so the method both
returns the filtered member set and (possibly) mutates the registry. -/
def others (s : St) (room_id peer_id : String) : Finset String × St :=
  let mem := (s.peers room_id).getD ∅
  (mem.erase peer_id, { s with peers := upd room_id (some mem) s.peers })

/-- Model of `Rooms.get_peers_in_room(room_id)` (room.py lines 36-38): `self._peers.get(room_id, set())`. -/
def get_peers_in_room (s : St) (room_id : String) : Finset String :=
  (s.peers room_id).getD ∅

/-- Model of `Rooms.get_peer_room(peer_id)` (room.py lines 40-42): `self._peer_rooms.get(peer_id)`. -/
def get_peer_room (s : St) (peer_id : String) : Option String :=
  s.peerRooms peer_id

/-- A sequence of `join` calls applied in order. -/
def applyJoins (s : St) (ops : List (String × String)) : St :=
  ops.foldl (fun t op => join t op.1 op.2) s

/-- The room of the most recent `join` for a given peer in a call sequence. -/
def lastJoinOf (ops : List (String × String)) (p : String) : Option String :=
  ops.foldl (fun acc op => if op.2 = p then some op.1 else acc) none

/-- Consistency invariant relating the two dicts of `Rooms`: a peer is a member
of a room's set exactly when `_peer_rooms` maps it there. -/
def Inv (s : St) : Prop :=
  ∀ p r, p ∈ membersOf s r ↔ s.peerRooms p = some r

end Rooms

namespace WebRTC

/-- A structured session description (`RTCSessionDescription`: `type`, `sdp`). -/
structure SessionDesc where
  type_ : String
  sdp : String

/-- A collected local ICE candidate as appended to `ice_candidates` by
`handle_offer`'s `on_ice_candidate` callback (web_rtc.py lines 230-234). -/
structure CandidateInfo where
  candidate : String
  sdpMid : Option String
  sdpMLineIndex : Option Int

/-- An event delivered to `handle_offer` while it waits: either a generated
candidate (callback with a non-null candidate) or a gathering-complete signal
(null candidate, or `iceGatheringState` changing to `"complete"`). -/
inductive GatherEv
  | cand (c : CandidateInfo)
  | complete

/-- Whether a gathering event carries a candidate. -/
def isCand : GatherEv → Bool
  | .cand _ => true
  | .complete => false

/-- A gathering event with its arrival time in seconds after
`setLocalDescription` started gathering. -/
structure TimedEv where
  t : ℚ
  ev : GatherEv

/-- The candidate carried by a timed event, if any. -/
def candOf (e : TimedEv) : Option CandidateInfo :=
  match e.ev with
  | .cand c => some c
  | .complete => none

/-- The bound passed to `asyncio.wait_for` in `handle_offer`
(web_rtc.py line 276): `timeout=15.0`. -/
def iceGatheringTimeout : ℚ := 15

/-- Contents of `ice_candidates` when the wait in `handle_offer` finishes:
events are consumed in arrival order until the first gathering-complete signal
or the 15-second timeout, whichever happens first; on timeout the collected
prefix is kept (the `TimeoutError` is caught, web_rtc.py lines 278-280). -/
def collectCandidates : List TimedEv → List CandidateInfo
  | [] => []
  | e :: rest =>
      if iceGatheringTimeout ≤ e.t then []
      else
        match e.ev with
        | .complete => []
        | .cand c => c :: collectCandidates rest

/-- Return value of `WebRTCHandler.handle_offer` (web_rtc.py lines 290-294). -/
structure OfferResult where
  sdp : String
  type_ : String
  ice_candidates : List CandidateInfo

/-- State of a `WebRTCHandler`: `connections` maps a peer id to the
`connectionState` of its `RTCPeerConnection` (`none` = no connection object);
`audio_tracks` and the audio handler's `recorders` are key sets; `room` is the
owned `Rooms` registry. -/
structure HandlerState where
  connections : String → Option String
  audio_tracks : Finset String
  recorders : Finset String
  room : Rooms.St

/-- Model of `WebRTCHandler.create_peer_connection` (web_rtc.py lines 28-82): stores a
fresh `RTCPeerConnection` (initial `connectionState` is `"new"`) under the peer
id and joins the peer into the room. -/
def create_peer_connection (st : HandlerState) (room_id peer_id : String) : HandlerState :=
  { st with
    connections := fun x => if x = peer_id then some "new" else st.connections x,
    room := Rooms.join st.room room_id peer_id }

/-- Model of `WebRTCHandler.handle_offer` (web_rtc.py lines 215-294): create the peer
connection, apply the remote description, create and apply the local answer
(aiortc's `createAnswer` produces a description with `type = "answer"` whose
SDP `answerSdp` comes from the Media Engine), wait for candidate gathering
bounded by the complete signal or the 15-second timeout, and return the local
description together with the collected candidates.  The timeout path catches
`asyncio.TimeoutError`, so the call never fails with it. -/
def handle_offer (st : HandlerState) (room_id peer_id : String)
    (answerSdp : String) (events : List TimedEv) :
    Except String (HandlerState × OfferResult) :=
  let st1 := create_peer_connection st room_id peer_id
  let localDesc : SessionDesc := { type_ := "answer", sdp := answerSdp }
  .ok (st1, { sdp := localDesc.sdp, type_ := localDesc.type_,
              ice_candidates := collectCandidates events })

/-- Accumulating scanner behind `pyWords`: `cur` holds the (reversed) current
word. -/
def splitWsAux (cur : List Char) : List Char → List (List Char)
  | [] => if cur.isEmpty then [] else [cur.reverse]
  | c :: rest =>
      if c.isWhitespace then
        if cur.isEmpty then splitWsAux [] rest
        else cur.reverse :: splitWsAux [] rest
      else splitWsAux (c :: cur) rest

/-- Python `str.split()` with no separator: split on runs of whitespace,
discarding empty pieces. -/
def pyWords (s : String) : List String :=
  (splitWsAux [] s.toList).map (fun cs => String.mk cs)

/-- Numeric value of a digit string. -/
def digitsVal (cs : List Char) : Int :=
  (cs.foldl (fun acc c => acc * 10 + (c.toNat - '0'.toNat)) 0 : Nat)

/-- Python `int(s)` restricted to the token shapes reachable here: an optional
sign followed by one or more decimal digits parses; anything else raises
`ValueError` (modelled as `none`). -/
def pyInt (s : String) : Option Int :=
  match s.toList with
  | [] => none
  | c :: rest =>
      if c = '-' then
        if rest.isEmpty then none
        else if rest.all Char.isDigit then some (-(digitsVal rest)) else none
      else if c = '+' then
        if rest.isEmpty then none
        else if rest.all Char.isDigit then some (digitsVal rest) else none
      else if (c :: rest).all Char.isDigit then some (digitsVal (c :: rest)) else none

/-- Token access `parts[i]` for the token list (all uses are guarded by length checks). -/
def tok (parts : List String) (i : Nat) : String := parts.getD i ""

/-- The optional key/value tail of a candidate string (web_rtc.py lines
355-362): pairs are scanned from token 8 in steps of 2; `raddr`, `rport`
(integer) and `tcptype` update the accumulators, other keys are skipped, and a
trailing key with no value is ignored (`if i + 1 < len(parts)`). -/
def parseExtras : List String → Option String → Option Int → Option String →
    Except String (Option String × Option Int × Option String)
  | k :: v :: rest, ra, rp, tt =>
      if k = "raddr" then parseExtras rest (some v) rp tt
      else if k = "rport" then
        match pyInt v with
        | some n => parseExtras rest ra (some n) tt
        | none => .error ("invalid literal for int() with base 10: " ++ v)
      else if k = "tcptype" then parseExtras rest ra rp (some v)
      else parseExtras rest ra rp tt
  | _, ra, rp, tt => .ok (ra, rp, tt)

/-- The structured candidate passed to `RTCIceCandidate` (web_rtc.py lines 365-378). -/
structure IceCandidate where
  component : Nat
  foundation : String
  ip : String
  port : Int
  priority : Int
  protocol : String
  type_ : String
  relatedAddress : Option String
  relatedPort : Option Int
  sdpMid : Option String
  sdpMLineIndex : Option Int
  tcpType : Option String

/-- The candidate dict of an `ice-candidate` message
(`{candidate, sdpMid?, sdpMLineIndex?}`). -/
structure CandidateMsg where
  candidate : String
  sdpMid : Option String
  sdpMLineIndex : Option Int

/-- Outcome of `WebRTCHandler.handle_candidate` when it returns normally. -/
inductive CandOutcome
  | ignored
  | added (c : IceCandidate)

/-- Model of `WebRTCHandler.handle_candidate` (web_rtc.py lines 320-388): raises
`ValueError` if the peer has no connection; splits the candidate string on
whitespace; if fewer than 8 tokens are present it logs and returns normally
(the `return` on line 337) with no candidate added; otherwise `int()` failures
on the priority (token 1), port (token 5) or an `rport` value raise and are
re-raised by the `except` block (line 388).  No field of the handler state is
modified on any path. -/
def handle_candidate (st : HandlerState) (_room_id peer_id : String)
    (msg : CandidateMsg) : Except String (HandlerState × CandOutcome) :=
  if (st.connections peer_id).isNone then
    .error ("No connection found for user " ++ peer_id)
  else
    let parts := pyWords msg.candidate
    if parts.length < 8 then .ok (st, .ignored)
    else
      match pyInt (tok parts 1) with
      | none => .error ("invalid literal for int() with base 10: " ++ tok parts 1)
      | some priority =>
          match pyInt (tok parts 5) with
          | none => .error ("invalid literal for int() with base 10: " ++ tok parts 5)
          | some port =>
              match parseExtras (parts.drop 8) none none none with
              | .error e => .error e
              | .ok (ra, rp, tt) =>
                  .ok (st, .added
                    { component := 1
                      foundation := tok parts 0
                      ip := tok parts 4
                      port := port
                      priority := priority
                      protocol := tok parts 2
                      type_ := tok parts 7
                      relatedAddress := ra
                      relatedPort := rp
                      sdpMid := msg.sdpMid
                      sdpMLineIndex := msg.sdpMLineIndex
                      tcpType := tt })

/-- A media stream track (only the `kind` attribute is inspected). -/
structure Track where
  kind : String

/-- Observable outcome of `forward_audio_track_to_room`; `completed` carries the
final log line `"{successful_forwards}/{len(other_peers)} peers received the
track"` as a pair of counts. -/
inductive FwdResult
  | invalidTrack
  | notAudio
  | noRoom
  | noOthers
  | completed (successes attempted : Nat)
  deriving DecidableEq

/-- Python truthiness of `room_id` (`if not room_id:`): `None` and `""` are falsy. -/
def pyOptRoom : Option String → Option String
  | some s => if s = "" then none else some s
  | none => none

/-- Model of `WebRTCHandler.forward_audio_track_to_room` (web_rtc.py lines 120-173):
validates the track, resolves the source peer's room, takes the other room
members, and attempts one relay subscription per member that has a connection
in state `"connected"`; a per-target exception (`subscribeFails`) is caught in
the loop and only skips that target.  The second component is the set of peers
whose connection actually received a relayed track.  The whole body is wrapped
in `try/except`, so the call itself never raises. -/
def forward_audio_track_to_room (st : HandlerState) (source_peer_id : String)
    (track : Option Track) (subscribeFails : String → Bool) :
    FwdResult × Finset String :=
  match track with
  | none => (.invalidTrack, ∅)
  | some tr =>
      if tr.kind ≠ "audio" then (.notAudio, ∅)
      else
        match pyOptRoom (Rooms.get_peer_room st.room source_peer_id) with
        | none => (.noRoom, ∅)
        | some room_id =>
            let room_peers := Rooms.get_peers_in_room st.room room_id
            let other_peers := room_peers.erase source_peer_id
            if other_peers = ∅ then (.noOthers, ∅)
            else
              let targets := other_peers.filter
                (fun p => st.connections p = some "connected" ∧ subscribeFails p = false)
              (.completed targets.card other_peers.card, targets)

/-- The cleanup actions performed by `remove_peer`, in execution order. -/
inductive CleanupStep
  | closeConnection
  | dropAudioTrack
  | stopRecording (stopped : Bool)
  | leaveRoom

/-- Steps of `remove_peer` after the connection block: drop the stored audio
track, stop any recording (`AudioStreamHandler.stop_recording` catches its own
exceptions and returns a bool, audio_handler.py lines 72-86), leave the room. -/
def remove_peer_rest (st : HandlerState) (peer_id : String) (steps : List CleanupStep) :
    Except String (HandlerState × List CleanupStep) :=
  let stAT := if peer_id ∈ st.audio_tracks
    then { st with audio_tracks := st.audio_tracks.erase peer_id } else st
  let steps1 := if peer_id ∈ st.audio_tracks then steps ++ [CleanupStep.dropAudioTrack] else steps
  let stopped := peer_id ∈ stAT.recorders
  let stR := { stAT with recorders := stAT.recorders.erase peer_id }
  let stL := { stR with room := Rooms.leave stR.room peer_id }
  .ok (stL, steps1 ++ [CleanupStep.stopRecording stopped, CleanupStep.leaveRoom])

/-- Model of `WebRTCHandler.remove_peer` (web_rtc.py lines 390-404): if a connection
exists, `await pc.close()` runs with no surrounding `try`; an exception there
(`closeRaises`) propagates immediately and none of the remaining cleanup steps
run.  Otherwise the connection entry is deleted and the remaining steps follow. -/
def remove_peer (st : HandlerState) (peer_id : String) (closeRaises : Bool) :
    Except String (HandlerState × List CleanupStep) :=
  match st.connections peer_id with
  | some _ =>
      if closeRaises then .error "connection close failed"
      else
        let st1 := { st with
          connections := fun x => if x = peer_id then none else st.connections x }
        remove_peer_rest st1 peer_id [CleanupStep.closeConnection]
  | none => remove_peer_rest st peer_id []

/-- One buffered audio sample row: one value per channel (float32 modelled
exactly as a rational). -/
abbrev Sample := List ℚ

/-- The `while len(self.buffer) > self.buffer_size: self.buffer.popleft()` loop
of `AudioPlayerTrack._run` (web_rtc.py lines 535-536). -/
def trimBuffer (buffer_size : ℕ) : List Sample → List Sample
  | [] => []
  | x :: xs => if xs.length + 1 > buffer_size then trimBuffer buffer_size xs else x :: xs

/-- One ingestion step of `AudioPlayerTrack._run` (web_rtc.py lines 530-536):
append every sample of the adapted frame to the buffer, then trim from the
front while over capacity. -/
def ingestSamples (buffer_size : ℕ) (buffer pcm : List Sample) : List Sample :=
  trimBuffer buffer_size (buffer ++ pcm)

/-- Model of `AudioPlayerTrack.__init__` (web_rtc.py line 474):
`buffer_size = int(target_rate * buffer_seconds)`; with the default
`target_rate = 48000` and `buffer_seconds = 0.3` this is 14400. -/
def defaultBufferSize : ℕ := 14400

/-- Model of `AudioPlayerTrack._audio_callback` (web_rtc.py lines 541-551): pop `frames`
samples from the front of the buffer, substituting a zero sample row
(`[0.0] * self.channels`) on underrun; returns the emitted chunk and the
remaining buffer. -/
def audioCallback (channels : ℕ) : ℕ → List Sample → List Sample × List Sample
  | 0, buf => ([], buf)
  | n + 1, [] =>
      let r := audioCallback channels n []
      (List.replicate channels 0 :: r.1, r.2)
  | n + 1, x :: xs =>
      let r := audioCallback channels n xs
      (x :: r.1, r.2)

/-- web_rtc.py lines 527-528: `if pcm.shape[1] == 1: pcm = np.repeat(pcm, 2,
axis=1)` — duplicate the single channel of a mono frame. -/
def runMonoToStereo (pcm : List (List ℚ)) : List (List ℚ) :=
  if (pcm.head?.getD []).length = 1
  then pcm.map (fun r => (r.map (fun v => [v, v])).flatten)
  else pcm

end WebRTC

namespace AudioPlayer

/-- Row mean `np.mean(row)` over one sample row (axis=1 of the frame). -/
def rowMean (r : List ℚ) : ℚ := r.sum / r.length

/-- Channel count `samples.shape[1] if len(samples.shape) > 1 else 1` for a rectangular
(sample-major) frame; rows all share this length. -/
def currentChannels (samples : List (List ℚ)) : ℕ := (samples.head?.getD []).length

/-- Model of `AudioPlayer._ensure_correct_channels` (audio_player.py lines 152-183):
pass through when the channel count already matches; duplicate mono to stereo
(`np.column_stack([samples, samples])`); average stereo to mono
(`np.mean(samples, axis=1, keepdims=True)`); otherwise truncate extra channels
or zero-pad missing ones. -/
def ensure_correct_channels (samples : List (List ℚ)) (target_channels : ℕ) :
    List (List ℚ) :=
  let current := currentChannels samples
  if current = target_channels then samples
  else if current = 1 ∧ target_channels = 2 then samples.map (fun r => r ++ r)
  else if current = 2 ∧ target_channels = 1 then samples.map (fun r => [rowMean r])
  else if current > target_channels then samples.map (fun r => r.take target_channels)
  else if current < target_channels then
    samples.map (fun r => r ++ List.replicate (target_channels - current) 0)
  else samples

end AudioPlayer

namespace WebSocket

/-- A decoded signaling message (a JSON object).  Each field is the result of
`message.get(...)`; a dict-valued field that is absent — or falsy, i.e. the
empty dict, which every use site treats identically to absent via `if x:` — is
modelled as `none`. -/
structure WsMessage where
  type_ : Option String
  roomId : Option String
  offer : Option WebRTC.SessionDesc
  answer : Option WebRTC.SessionDesc
  candidate : Option WebRTC.CandidateMsg
  timestamp : Option String

/-- JSON replies produced by `handle_websocket_message` / `websocket_endpoint`. -/
inductive WsReply
  | answerReply (roomId : String) (ans : WebRTC.OfferResult)
  | roomJoined (roomId peerId : String)
  | roomLeft (roomId peerId : String)
  | pong (timestamp : Option String)
  | errorReply (message : String)
  | userJoinedRoom (roomId peerId : String)
  | userLeftRoom (roomId peerId : String)

/-- Observable actions of the dispatcher: a personal reply, a broadcast, or an
invocation of one of the `WebRTCHandler` coroutines. -/
inductive WsEffect
  | send (r : WsReply)
  | broadcast (r : WsReply)
  | callOffer (roomId : String) (offer : WebRTC.SessionDesc)
  | callAnswer (ans : WebRTC.SessionDesc)
  | callCandidate (roomId : String) (cand : WebRTC.CandidateMsg)

/-- Outcomes of the awaited `WebRTCHandler` coroutines, abstracted as oracles:
`.error e` models the coroutine raising an exception with message `e`. -/
structure Handlers where
  offerResult : String → String → WebRTC.SessionDesc → Except String WebRTC.OfferResult
  answerResult : String → WebRTC.SessionDesc → Except String Unit
  candidateResult : String → String → WebRTC.CandidateMsg → Except String Unit

/-- How Python renders `message_type` into the f-string (`None` when absent). -/
def typeRepr : Option String → String
  | some t => t
  | none => "None"

/-- Model of `handle_websocket_message` (web_socket.py lines 124-245).  The registry
state is threaded through (only `join-room`/`leave-room` touch it); all other
session effects are recorded in the effect list.  Every branch of the `try`
that raises — the explicit `ValueError` for an offer with missing fields, or a
handler oracle returning `.error` — lands in the `except` clause, which sends
`"Error processing message: <detail>"`. -/
def handle_websocket_message (h : Handlers) (st : Rooms.St) (user_id : String)
    (m : WsMessage) : Rooms.St × List WsEffect :=
  if m.type_ = some "offer" then
    match m.roomId, m.offer with
    | some rid, some off =>
        if rid = "" then
          (st, [.send (.errorReply "Error processing message: Missing roomId or offer")])
        else
          match h.offerResult user_id rid off with
          | .ok ans => (st, [.callOffer rid off, .send (.answerReply rid ans)])
          | .error e =>
              (st, [.callOffer rid off, .send (.errorReply ("Error processing message: " ++ e))])
    | _, _ => (st, [.send (.errorReply "Error processing message: Missing roomId or offer")])
  else if m.type_ = some "answer" then
    match m.answer with
    | some ans =>
        match h.answerResult user_id ans with
        | .ok _ => (st, [.callAnswer ans])
        | .error e =>
            (st, [.callAnswer ans, .send (.errorReply ("Error processing message: " ++ e))])
    | none => (st, [])
  else if m.type_ = some "ice-candidate" then
    match m.roomId, m.candidate with
    | some rid, some c =>
        if rid = "" then (st, [])
        else
          match h.candidateResult rid user_id c with
          | .ok _ => (st, [.callCandidate rid c])
          | .error e =>
              (st, [.callCandidate rid c, .send (.errorReply ("Error processing message: " ++ e))])
    | _, _ => (st, [])
  else if m.type_ = some "join-room" then
    match m.roomId with
    | some rid =>
        if rid = "" then (st, [])
        else (Rooms.join st rid user_id,
              [.send (.roomJoined rid user_id), .broadcast (.userJoinedRoom rid user_id)])
    | none => (st, [])
  else if m.type_ = some "leave-room" then
    match m.roomId with
    | some rid =>
        if rid = "" then (st, [])
        else (Rooms.leave st user_id,
              [.send (.roomLeft rid user_id), .broadcast (.userLeftRoom rid user_id)])
    | none => (st, [])
  else if m.type_ = some "ping" then
    (st, [.send (.pong m.timestamp)])
  else
    (st, [.send (.errorReply ("Unknown message type: " ++ typeRepr m.type_))])

/-- One payload received by the `while True` loop of `websocket_endpoint`
(web_socket.py lines 98-115): text that is not JSON (`json.loads` raises
`JSONDecodeError`), valid JSON that is not an object, or a decoded object. -/
inductive Incoming
  | notJson
  | jsonNonDict
  | jsonDict (m : WsMessage)

/-- One iteration of the receive loop of `websocket_endpoint`.  The boolean is
whether the loop keeps running afterwards.  `notJson` is caught by the inner
`except json.JSONDecodeError` and answered with `"Invalid JSON format"`.  For a
non-object payload, `message.get("type")` on line 128 raises `AttributeError`
*before* the dispatcher's `try` block; the inner `except` does not catch it, so
it reaches the outer `except Exception` (line 120), which disconnects the user
and ends the loop with no reply. -/
def websocket_loop_step (h : Handlers) (st : Rooms.St) (user_id : String) :
    Incoming → Rooms.St × List WsEffect × Bool
  | .notJson => (st, [.send (.errorReply "Invalid JSON format")], true)
  | .jsonNonDict => (st, [], false)
  | .jsonDict m =>
      let r := handle_websocket_message h st user_id m
      (r.1, r.2, true)

/-- A handler oracle where every coroutine returns normally. -/
def okHandlers : Handlers where
  offerResult := fun _ _ _ => .ok { sdp := "v=0", type_ := "answer", ice_candidates := [] }
  answerResult := fun _ _ => .ok ()
  candidateResult := fun _ _ _ => .ok ()

/-- A handler oracle where every coroutine raises (exception message `"boom"`). -/
def failHandlers : Handlers where
  offerResult := fun _ _ _ => .error "boom"
  answerResult := fun _ _ => .error "boom"
  candidateResult := fun _ _ _ => .error "boom"

end WebSocket

namespace WebRTC

/-- A concrete handler state used in concrete checks: peer `"p1"` has a
connected `RTCPeerConnection`, a stored audio track, an active recording, and
sits in room `"r1"`. -/
def demoState : HandlerState :=
  { connections := fun x => if x = "p1" then some "connected" else none,
    audio_tracks := {"p1"},
    recorders := {"p1"},
    room := Rooms.join Rooms.init "r1" "p1" }

end WebRTC

namespace Rooms

theorem upd_apply (k : String) (v : Option (Finset String)) (f : String → Option (Finset String))
    (x : String) : upd k v f x = if x = k then v else f x := rfl

theorem updR_apply (k : String) (v : Option String) (f : String → Option String)
    (x : String) : updR k v f x = if x = k then v else f x := rfl

theorem get_peer_room_join (s : St) (r p q : String) :
    get_peer_room (join s r p) q = if q = p then some r else get_peer_room s q := rfl

theorem mem_of_erase_eq_empty {m : Finset String} {p q : String}
    (h : m.erase p = ∅) (hq : q ≠ p) : q ∉ m := by
  intro hqm
  have hmem : q ∈ m.erase p := Finset.mem_erase.mpr ⟨hq, hqm⟩
  rw [h] at hmem
  exact absurd hmem (Finset.not_mem_empty q)

theorem Inv_init : Inv init := by
  intro p r
  simp [init, membersOf]

theorem removeFromOld_no_room {s : St} {p : String} (hpr : s.peerRooms p = none) :
    removeFromOld s p = s.peers := by
  unfold removeFromOld
  rw [hpr]

theorem removeFromOld_no_set {s : St} {p old : String}
    (hpr : s.peerRooms p = some old) (hpo : s.peers old = none) :
    removeFromOld s p = s.peers := by
  unfold removeFromOld
  rw [hpr]
  show (match s.peers old with
        | some mem =>
            if mem.erase p = ∅ then upd old none s.peers
            else upd old (some (mem.erase p)) s.peers
        | none => s.peers) = s.peers
  rw [hpo]

theorem removeFromOld_some {s : St} {p old : String} {mem : Finset String}
    (hpr : s.peerRooms p = some old) (hpo : s.peers old = some mem) :
    removeFromOld s p =
      (if mem.erase p = ∅ then upd old none s.peers
       else upd old (some (mem.erase p)) s.peers) := by
  unfold removeFromOld
  rw [hpr]
  show (match s.peers old with
        | some mem =>
            if mem.erase p = ∅ then upd old none s.peers
            else upd old (some (mem.erase p)) s.peers
        | none => s.peers) = _
  rw [hpo]

/-- After removing `p` from its old room, membership in any room is: the old
membership, minus `p` everywhere (given the consistency invariant). -/
theorem mem_removeFromOld {s : St} (h : Inv s) (p q r' : String) :
    q ∈ (removeFromOld s p r').getD ∅ ↔ (s.peerRooms q = some r' ∧ q ≠ p) := by
  have hbase : ∀ p' r'', p' ∈ (s.peers r'').getD ∅ ↔ s.peerRooms p' = some r'' := h
  have hsame : ∀ hrm : removeFromOld s p = s.peers, p ∉ (s.peers p).getD ∅ → True :=
    fun _ _ => trivial
  cases hpr : s.peerRooms p with
  | none =>
      rw [removeFromOld_no_room hpr, hbase q r']
      constructor
      · intro hq
        refine ⟨hq, ?_⟩
        rintro rfl
        rw [hpr] at hq
        exact Option.noConfusion hq
      · exact fun hq => hq.1
  | some old =>
      cases hpo : s.peers old with
      | none =>
          rw [removeFromOld_no_set hpr hpo, hbase q r']
          constructor
          · intro hq
            refine ⟨hq, ?_⟩
            rintro rfl
            have hx := (hbase q old).mpr hpr
            rw [hpo] at hx
            exact absurd hx (Finset.not_mem_empty q)
          · exact fun hq => hq.1
      | some mem =>
          rw [removeFromOld_some hpr hpo]
          by_cases hE : mem.erase p = ∅
          · rw [if_pos hE, upd_apply]
            by_cases hro : r' = old
            · rw [if_pos hro]
              simp only [Option.getD_none, Finset.not_mem_empty, false_iff]
              rintro ⟨hq1, hq2⟩
              subst hro
              have hx : q ∈ (s.peers r').getD ∅ := (hbase q r').mpr hq1
              rw [hpo] at hx
              exact mem_of_erase_eq_empty hE hq2 hx
            · rw [if_neg hro, hbase q r']
              constructor
              · intro hq
                refine ⟨hq, ?_⟩
                rintro rfl
                rw [hpr] at hq
                exact hro (Option.some.inj hq).symm
              · exact fun hq => hq.1
          · rw [if_neg hE, upd_apply]
            by_cases hro : r' = old
            · rw [if_pos hro]
              simp only [Option.getD_some, Finset.mem_erase]
              subst hro
              rw [and_comm]
              constructor
              · rintro ⟨hq1, hq2⟩
                refine ⟨(hbase q r').mp ?_, hq2⟩
                rw [hpo]
                exact hq1
              · rintro ⟨hq1, hq2⟩
                refine ⟨?_, hq2⟩
                have hx := (hbase q r').mpr hq1
                rw [hpo] at hx
                exact hx
            · rw [if_neg hro, hbase q r']
              constructor
              · intro hq
                refine ⟨hq, ?_⟩
                rintro rfl
                rw [hpr] at hq
                exact hro (Option.some.inj hq).symm
              · exact fun hq => hq.1

theorem mem_membersOf_join {s : St} (h : Inv s) (r p q r' : String) :
    q ∈ membersOf (join s r p) r' ↔
      (if r' = r then q = p ∨ (s.peerRooms q = some r' ∧ q ≠ p)
       else s.peerRooms q = some r' ∧ q ≠ p) := by
  unfold join membersOf
  simp only [upd_apply]
  by_cases hr : r' = r
  · rw [if_pos hr, if_pos hr]
    simp only [Option.getD_some, Finset.mem_insert]
    rw [mem_removeFromOld h p q r]
    subst hr
    tauto
  · rw [if_neg hr, if_neg hr]
    exact mem_removeFromOld h p q r'

theorem Inv_join {s : St} (h : Inv s) (r p : String) : Inv (join s r p) := by
  intro q r'
  rw [mem_membersOf_join h r p q r']
  show _ ↔ updR p (some r) s.peerRooms q = some r'
  rw [updR_apply]
  by_cases hq : q = p
  · subst hq
    rw [if_pos rfl]
    by_cases hr : r' = r
    · subst hr; simp
    · rw [if_neg hr]
      simp only [Option.some.injEq]
      constructor
      · rintro ⟨_, hbad⟩
        exact absurd rfl hbad
      · intro hE
        exact absurd hE.symm hr
  · rw [if_neg hq]
    by_cases hr : r' = r
    · rw [if_pos hr]
      constructor
      · rintro (rfl | ⟨h1, _⟩)
        · exact absurd rfl hq
        · exact h1
      · intro h1
        exact Or.inr ⟨h1, hq⟩
    · rw [if_neg hr]
      exact ⟨fun hx => hx.1, fun hx => ⟨hx, hq⟩⟩

theorem Inv_applyJoins (ops : List (String × String)) :
    ∀ s : St, Inv s → Inv (applyJoins s ops) := by
  induction ops with
  | nil => exact fun s hs => hs
  | cons op rest ih =>
      intro s hs
      exact ih (join s op.1 op.2) (Inv_join hs op.1 op.2)

theorem get_peer_room_applyJoins (p : String) (ops : List (String × String)) :
    ∀ s : St, get_peer_room (applyJoins s ops) p =
      ops.foldl (fun acc op => if op.2 = p then some op.1 else acc) (get_peer_room s p) := by
  induction ops with
  | nil => intro s; rfl
  | cons op rest ih =>
      intro s
      have hstep : get_peer_room (join s op.1 op.2) p
          = (fun acc (o : String × String) => if o.2 = p then some o.1 else acc)
              (get_peer_room s p) op := by
        show (if p = op.2 then some op.1 else get_peer_room s p) = _
        by_cases hp : p = op.2
        · rw [if_pos hp]
          show _ = (if op.2 = p then some op.1 else get_peer_room s p)
          rw [if_pos hp.symm]
        · rw [if_neg hp]
          show _ = (if op.2 = p then some op.1 else get_peer_room s p)
          rw [if_neg (fun hx => hp hx.symm)]
      show get_peer_room (applyJoins (join s op.1 op.2) rest) p = _
      rw [ih (join s op.1 op.2), hstep, List.foldl_cons]

theorem lastJoinOf_correct (ops : List (String × String)) (p : String) :
    get_peer_room (applyJoins init ops) p = lastJoinOf ops p := by
  rw [get_peer_room_applyJoins p ops init]
  rfl

/-- Two registry states with equal fields are equal. -/
theorem St.ext' {a b : St} (h1 : a.peers = b.peers) (h2 : a.peerRooms = b.peerRooms) :
    a = b := by
  cases a
  cases b
  exact congrArg₂ St.mk h1 h2

/-- Joining the room the peer is already in leaves the registry unchanged. -/
theorem join_idempotent {s : St} (h : Inv s) {r p : String}
    (hp : s.peerRooms p = some r) : join s r p = s := by
  have hmem0 : p ∈ (s.peers r).getD ∅ := (h p r).mpr hp
  obtain ⟨mem, hpe⟩ : ∃ mem, s.peers r = some mem := by
    cases hx : s.peers r with
    | none => rw [hx] at hmem0; exact absurd hmem0 (Finset.not_mem_empty p)
    | some mem => exact ⟨mem, rfl⟩
  have hmem : p ∈ mem := by
    rw [hpe] at hmem0
    exact hmem0
  have hrm : removeFromOld s p =
      (if mem.erase p = ∅ then upd r none s.peers
       else upd r (some (mem.erase p)) s.peers) := removeFromOld_some hp hpe
  refine St.ext' ?_ ?_
  · show upd r (some (insert p ((removeFromOld s p r).getD ∅))) (removeFromOld s p) = s.peers
    rw [hrm]
    by_cases hE : mem.erase p = ∅
    · have hsing : mem = {p} := by
        apply Finset.ext
        intro q
        simp only [Finset.mem_singleton]
        constructor
        · intro hq
          by_contra hqp
          exact (mem_of_erase_eq_empty hE hqp) hq
        · rintro rfl
          exact hmem
      rw [if_pos hE]
      funext x
      by_cases hx : x = r
      · subst hx
        simp [upd_apply, hpe, hsing]
      · simp only [upd_apply, if_neg hx]
    · rw [if_neg hE]
      funext x
      by_cases hx : x = r
      · subst hx
        simp [upd_apply, Finset.insert_erase hmem, hpe]
      · simp only [upd_apply, if_neg hx]
  · show updR p (some r) s.peerRooms = s.peerRooms
    funext x
    rw [updR_apply]
    by_cases hx : x = p
    · subst hx
      rw [if_pos rfl]
      exact hp.symm
    · rw [if_neg hx]

end Rooms

namespace WebRTC

theorem collectCandidates_eq (events : List TimedEv) :
    collectCandidates events =
      (events.takeWhile (fun e => decide (e.t < iceGatheringTimeout) && isCand e.ev)).filterMap
        candOf := by
  induction events with
  | nil => rfl
  | cons e rest ih =>
      unfold collectCandidates
      by_cases ht : iceGatheringTimeout ≤ e.t
      · rw [if_pos ht]
        have hp : (decide (e.t < iceGatheringTimeout) && isCand e.ev) = false := by
          simp [not_lt.mpr ht]
        rw [List.takeWhile_cons, hp]
        rfl
      · rw [if_neg ht]
        cases hev : e.ev with
        | complete =>
            have hp : (decide (e.t < iceGatheringTimeout) && isCand e.ev) = false := by
              simp [hev, isCand]
            rw [List.takeWhile_cons, hp]
            rfl
        | cand c =>
            have hp : (decide (e.t < iceGatheringTimeout) && isCand e.ev) = true := by
              simp [hev, isCand, lt_of_not_le ht]
            rw [List.takeWhile_cons, hp]
            simp only [ite_true, List.filterMap_cons]
            rw [show candOf e = some c by simp [candOf, hev]]
            rw [ih]

end WebRTC

/-- C1: for every offer, candidate gathering stops at the earlier of the
explicit gathering-complete signal and the fixed 15-second timeout
(`iceGatheringTimeout`); the call returns `.ok` in every case (a timeout never
fails the exchange), and the result carries the local description with type
`"answer"` together with exactly the candidates collected before the stop
point, in observed order. -/
theorem C1_handle_offer_gathering (st : WebRTC.HandlerState)
    (room_id peer_id answerSdp : String) (events : List WebRTC.TimedEv) :
    WebRTC.handle_offer st room_id peer_id answerSdp events =
      .ok (WebRTC.create_peer_connection st room_id peer_id,
        { sdp := answerSdp, type_ := "answer",
          ice_candidates :=
            (events.takeWhile (fun e =>
                decide (e.t < WebRTC.iceGatheringTimeout) && WebRTC.isCand e.ev)).filterMap
              WebRTC.candOf }) := by
  unfold WebRTC.handle_offer
  rw [WebRTC.collectCandidates_eq]

/-- C2 counterexample: peer `"p1"` has an active session and the candidate
string `"a b c"` has fewer than 8 tokens, yet `handle_candidate` returns
normally (`.ok` with nothing added) instead of failing with
`MalformedCandidateError` — the `return` on web_rtc.py line 337 silently drops
the candidate. -/
theorem C2_counterexample :
    WebRTC.demoState.connections "p1" = some "connected" ∧
    (WebRTC.pyWords "a b c").length < 8 ∧
    WebRTC.handle_candidate WebRTC.demoState "r1" "p1"
      { candidate := "a b c", sdpMid := none, sdpMLineIndex := none } =
      .ok (WebRTC.demoState, .ignored) :=
  ⟨rfl, by decide, rfl⟩

/-- C2 (amended): `handle_candidate` fails with the no-session error when the
peer has no connection; with a session, a candidate string of fewer than 8
whitespace-separated tokens is silently ignored (no error, nothing added);
with 8 or more tokens the call fails exactly when a numeric field (priority,
port, or an `rport` value) does not parse as an integer; and no success path
or error path modifies the handler state (session and registries unchanged). -/
theorem C2_handle_candidate_amended (st : WebRTC.HandlerState) (rid p : String)
    (msg : WebRTC.CandidateMsg) :
    (st.connections p = none →
       WebRTC.handle_candidate st rid p msg =
         .error ("No connection found for user " ++ p)) ∧
    ((st.connections p).isSome →
       (WebRTC.pyWords msg.candidate).length < 8 →
       WebRTC.handle_candidate st rid p msg = .ok (st, .ignored)) ∧
    ((st.connections p).isSome →
       8 ≤ (WebRTC.pyWords msg.candidate).length →
       ((∃ e, WebRTC.handle_candidate st rid p msg = .error e) ↔
        (WebRTC.pyInt (WebRTC.tok (WebRTC.pyWords msg.candidate) 1) = none ∨
         WebRTC.pyInt (WebRTC.tok (WebRTC.pyWords msg.candidate) 5) = none ∨
         ∃ e, WebRTC.parseExtras ((WebRTC.pyWords msg.candidate).drop 8)
                none none none = .error e))) ∧
    (∀ st2 out, WebRTC.handle_candidate st rid p msg = .ok (st2, out) → st2 = st) := by
  refine ⟨?_, ?_, ?_, ?_⟩
  · intro hc
    simp [WebRTC.handle_candidate, hc]
  · intro hsome hlen
    obtain ⟨v, hv⟩ := Option.isSome_iff_exists.mp hsome
    simp [WebRTC.handle_candidate, hv, hlen]
  · intro hsome hlen8
    obtain ⟨v, hv⟩ := Option.isSome_iff_exists.mp hsome
    have hnlt : ¬((WebRTC.pyWords msg.candidate).length < 8) := not_lt.mpr hlen8
    cases hm1 : WebRTC.pyInt (WebRTC.tok (WebRTC.pyWords msg.candidate) 1) with
    | none => simp [WebRTC.handle_candidate, hv, hnlt, hm1]
    | some priority =>
        cases hm5 : WebRTC.pyInt (WebRTC.tok (WebRTC.pyWords msg.candidate) 5) with
        | none => simp [WebRTC.handle_candidate, hv, hnlt, hm1, hm5]
        | some port =>
            cases hex : WebRTC.parseExtras ((WebRTC.pyWords msg.candidate).drop 8)
                none none none with
            | error e => simp [WebRTC.handle_candidate, hv, hnlt, hm1, hm5, hex]
            | ok extras => simp [WebRTC.handle_candidate, hv, hnlt, hm1, hm5, hex]
  · intro st2 out hok
    simp only [WebRTC.handle_candidate] at hok
    split at hok
    · exact Except.noConfusion hok
    · split at hok
      · simp only [Except.ok.injEq, Prod.mk.injEq] at hok
        exact hok.1.symm
      · split at hok
        · exact Except.noConfusion hok
        · split at hok
          · exact Except.noConfusion hok
          · split at hok
            · exact Except.noConfusion hok
            · simp only [Except.ok.injEq, Prod.mk.injEq] at hok
              exact hok.1.symm

/-- C2 witness: concrete instantiations of the amended contract — a peer with
no session errors; a connected peer with a short candidate string is ignored;
a connected peer with 8 tokens and a non-numeric priority fails. -/
theorem C2_witness :
    (WebRTC.demoState.connections "p2" = none ∧
     WebRTC.handle_candidate WebRTC.demoState "r1" "p2"
       { candidate := "a", sdpMid := none, sdpMLineIndex := none } =
       .error "No connection found for user p2") ∧
    ((WebRTC.demoState.connections "p1").isSome ∧
     WebRTC.handle_candidate WebRTC.demoState "r1" "p1"
       { candidate := "a b c", sdpMid := none, sdpMLineIndex := none } =
       .ok (WebRTC.demoState, .ignored)) ∧
    (∃ e, WebRTC.handle_candidate WebRTC.demoState "r1" "p1"
       { candidate := "candidate:1 xx UDP 2122252543 192.168.1.1 54321 typ host",
         sdpMid := none, sdpMLineIndex := none } = .error e) := by
  refine ⟨⟨rfl, ?_⟩, ⟨rfl, ?_⟩, ?_⟩
  · exact (C2_handle_candidate_amended WebRTC.demoState "r1" "p2"
      { candidate := "a", sdpMid := none, sdpMLineIndex := none }).1 rfl
  · exact (C2_handle_candidate_amended WebRTC.demoState "r1" "p1"
      { candidate := "a b c", sdpMid := none, sdpMLineIndex := none }).2.1 rfl (by decide)
  · exact ((C2_handle_candidate_amended WebRTC.demoState "r1" "p1"
      { candidate := "candidate:1 xx UDP 2122252543 192.168.1.1 54321 typ host",
        sdpMid := none, sdpMLineIndex := none }).2.2.1 rfl (by decide)).mpr
      (Or.inl (by decide))

/-- C3: forwarding an audio track is a no-op (never an error) when the source
peer has no room or no other members share it; otherwise a relay subscription
is attempted exactly for the other members whose connection state is
`"connected"`, a per-target failure only removes that target from the
successes, and the completion report counts successes against all other
members. -/
theorem C3_forward_audio (st : WebRTC.HandlerState) (src : String)
    (fails : String → Bool) :
    (WebRTC.pyOptRoom (Rooms.get_peer_room st.room src) = none →
       WebRTC.forward_audio_track_to_room st src (some { kind := "audio" }) fails =
         (.noRoom, ∅)) ∧
    (∀ rid, WebRTC.pyOptRoom (Rooms.get_peer_room st.room src) = some rid →
       (Rooms.get_peers_in_room st.room rid).erase src = ∅ →
       WebRTC.forward_audio_track_to_room st src (some { kind := "audio" }) fails =
         (.noOthers, ∅)) ∧
    (∀ rid, WebRTC.pyOptRoom (Rooms.get_peer_room st.room src) = some rid →
       (Rooms.get_peers_in_room st.room rid).erase src ≠ ∅ →
       (WebRTC.forward_audio_track_to_room st src (some { kind := "audio" }) fails =
         (.completed
            (((Rooms.get_peers_in_room st.room rid).erase src).filter
               (fun q => st.connections q = some "connected" ∧ fails q = false)).card
            ((Rooms.get_peers_in_room st.room rid).erase src).card,
          ((Rooms.get_peers_in_room st.room rid).erase src).filter
            (fun q => st.connections q = some "connected" ∧ fails q = false)) ∧
        ∀ q ∈ (Rooms.get_peers_in_room st.room rid).erase src,
          st.connections q = some "connected" → fails q = false →
          q ∈ (WebRTC.forward_audio_track_to_room st src
                 (some { kind := "audio" }) fails).2)) := by
  refine ⟨?_, ?_, ?_⟩
  · intro h
    simp [WebRTC.forward_audio_track_to_room, h]
  · intro rid h hempty
    simp [WebRTC.forward_audio_track_to_room, h, hempty]
  · intro rid h hne
    constructor
    · simp [WebRTC.forward_audio_track_to_room, h, hne]
    · intro q hq hconn hfail
      simp only [Finset.mem_erase] at hq
      simp [WebRTC.forward_audio_track_to_room, h, hne]
      exact ⟨⟨hq.1, hq.2⟩, hconn, hfail⟩

/-- C3 witness: peers `"a"`, `"b"` share room `"r1"`, `"a"` publishes an audio
track; forwarding reports `1/1` with `"b"` subscribed when `"b"` is connected,
and `0/1` with nobody subscribed (and no exception) when `"b"` is still
mid-negotiation. -/
theorem C3_witness :
    WebRTC.forward_audio_track_to_room
      { connections := fun x => if x = "b" then some "connected" else none,
        audio_tracks := ∅, recorders := ∅,
        room := Rooms.join (Rooms.join Rooms.init "r1" "a") "r1" "b" }
      "a" (some { kind := "audio" }) (fun _ => false) =
      (.completed 1 1, {"b"}) ∧
    WebRTC.forward_audio_track_to_room
      { connections := fun x => if x = "b" then some "new" else none,
        audio_tracks := ∅, recorders := ∅,
        room := Rooms.join (Rooms.join Rooms.init "r1" "a") "r1" "b" }
      "a" (some { kind := "audio" }) (fun _ => false) =
      (.completed 0 1, ∅) := by
  constructor
  · exact (((C3_forward_audio
      { connections := fun x => if x = "b" then some "connected" else none,
        audio_tracks := ∅, recorders := ∅,
        room := Rooms.join (Rooms.join Rooms.init "r1" "a") "r1" "b" }
      "a" (fun _ => false)).2.2 "r1" rfl (by decide)).1).trans (by decide)
  · exact (((C3_forward_audio
      { connections := fun x => if x = "b" then some "new" else none,
        audio_tracks := ∅, recorders := ∅,
        room := Rooms.join (Rooms.join Rooms.init "r1" "a") "r1" "b" }
      "a" (fun _ => false)).2.2 "r1" rfl (by decide)).1).trans (by decide)

/-- C8 counterexample: peer `"p1"` has a connection, a stored track, an active
recording and a room; when `pc.close()` raises, `remove_peer` propagates the
exception instead of attempting the remaining cleanup steps, so no cleanup
report is produced at all. -/
theorem C8_counterexample :
    WebRTC.remove_peer WebRTC.demoState "p1" true = .error "connection close failed" ∧
    ∀ res, WebRTC.remove_peer WebRTC.demoState "p1" true ≠ .ok res :=
  ⟨rfl, fun _ h => Except.noConfusion h⟩

/-- C8 (amended): when closing the connection does not raise (or no connection
exists), every cleanup step runs in order — close, drop the audio track, stop
recording (whose own failures are swallowed inside the audio handler), leave
the room — and the final state has the peer scrubbed from every registry; but
when `pc.close()` raises, the exception propagates and none of the remaining
steps are attempted. -/
theorem C8_remove_peer_amended (st : WebRTC.HandlerState) (p : String) (b : Bool) :
    (b = false ∨ st.connections p = none →
       ∃ st2, WebRTC.remove_peer st p b =
           .ok (st2,
             (if (st.connections p).isSome then [WebRTC.CleanupStep.closeConnection] else []) ++
             (if p ∈ st.audio_tracks then [WebRTC.CleanupStep.dropAudioTrack] else []) ++
             [WebRTC.CleanupStep.stopRecording (p ∈ st.recorders),
              WebRTC.CleanupStep.leaveRoom]) ∧
         st2.room = Rooms.leave st.room p ∧
         st2.connections p = none ∧ p ∉ st2.audio_tracks ∧ p ∉ st2.recorders) ∧
    ((st.connections p).isSome → b = true →
       WebRTC.remove_peer st p b = .error "connection close failed") := by
  constructor
  · intro hb
    cases hc : st.connections p with
    | none =>
        by_cases hat : p ∈ st.audio_tracks
        · refine ⟨{ st with audio_tracks := st.audio_tracks.erase p, recorders := st.recorders.erase p, room := Rooms.leave st.room p }, ?_, rfl, hc, ?_, ?_⟩
          · simp [WebRTC.remove_peer, WebRTC.remove_peer_rest, hc, hat]
          · simp
          · simp
        · refine ⟨{ st with recorders := st.recorders.erase p, room := Rooms.leave st.room p }, ?_, rfl, hc, hat, ?_⟩
          · simp [WebRTC.remove_peer, WebRTC.remove_peer_rest, hc, hat]
          · simp
    | some v =>
        have hbf : b = false := by
          cases hb with
          | inl h => exact h
          | inr h => rw [hc] at h; exact Option.noConfusion h
        subst hbf
        by_cases hat : p ∈ st.audio_tracks
        · refine ⟨{ connections := fun x => if x = p then none else st.connections x, audio_tracks := st.audio_tracks.erase p, recorders := st.recorders.erase p, room := Rooms.leave st.room p }, ?_, rfl, ?_, ?_, ?_⟩
          · simp [WebRTC.remove_peer, WebRTC.remove_peer_rest, hc, hat]
          · simp
          · simp
          · simp
        · refine ⟨{ connections := fun x => if x = p then none else st.connections x, audio_tracks := st.audio_tracks, recorders := st.recorders.erase p, room := Rooms.leave st.room p }, ?_, rfl, ?_, hat, ?_⟩
          · simp [WebRTC.remove_peer, WebRTC.remove_peer_rest, hc, hat]
          · simp
          · simp
  · intro hs hb
    subst hb
    obtain ⟨v, hv⟩ := Option.isSome_iff_exists.mp hs
    simp [WebRTC.remove_peer, hv]

/-- C8 witness: with no step raising, removing peer `"p1"` runs all four
cleanup steps and scrubs the peer from every registry. -/
theorem C8_witness :
    WebRTC.demoState.connections "p1" = some "connected" ∧
    (∃ st2, WebRTC.remove_peer WebRTC.demoState "p1" false =
        .ok (st2, [WebRTC.CleanupStep.closeConnection,
                   WebRTC.CleanupStep.dropAudioTrack,
                   WebRTC.CleanupStep.stopRecording true,
                   WebRTC.CleanupStep.leaveRoom]) ∧
      st2.room = Rooms.leave WebRTC.demoState.room "p1" ∧
      st2.connections "p1" = none ∧
      "p1" ∉ st2.audio_tracks ∧ "p1" ∉ st2.recorders) :=
  ⟨rfl, (C8_remove_peer_amended WebRTC.demoState "p1" false).1 (Or.inl rfl)⟩

namespace WebRTC

theorem trimBuffer_eq_drop (cap : ℕ) :
    ∀ buf : List Sample, trimBuffer cap buf = buf.drop (buf.length - cap) := by
  intro buf
  induction buf with
  | nil => simp [trimBuffer]
  | cons x xs ih =>
      unfold trimBuffer
      by_cases hlen : xs.length + 1 > cap
      · rw [if_pos hlen, ih]
        have hsub : (x :: xs).length - cap = (xs.length - cap) + 1 := by
          simp only [List.length_cons]
          omega
        rw [hsub, List.drop_succ_cons]
      · rw [if_neg hlen]
        have hsub : (x :: xs).length - cap = 0 := by
          simp only [List.length_cons]
          omega
        rw [hsub, List.drop_zero]

theorem audioCallback_eq (channels : ℕ) :
    ∀ (n : ℕ) (buf : List Sample),
      audioCallback channels n buf =
        (buf.take n ++ List.replicate (n - buf.length) (List.replicate channels 0),
         buf.drop n) := by
  intro n
  induction n with
  | zero => intro buf; simp [audioCallback]
  | succ n ih =>
      intro buf
      cases buf with
      | nil =>
          simp only [audioCallback, ih, List.take_nil, List.drop_nil, List.nil_append,
            List.length_nil, Nat.sub_zero]
          rw [← List.replicate_succ]
      | cons x xs =>
          simp only [audioCallback, ih, List.take_succ_cons, List.drop_succ_cons,
            List.length_cons, Nat.succ_sub_succ, List.cons_append]

end WebRTC

/-- C6: after every ingestion step the jitter buffer holds at most the
configured capacity; when the appended frame would exceed capacity exactly the
oldest samples are evicted (the result is the suffix of append order); and the
render callback pops samples in push order, emitting the oldest `n` samples
(padded with zero rows on underrun) and keeping the rest. -/
theorem C6_jitter_buffer (cap : ℕ) (buf pcm : List WebRTC.Sample)
    (channels n : ℕ) :
    (WebRTC.ingestSamples cap buf pcm).length ≤ cap ∧
    WebRTC.ingestSamples cap buf pcm =
      (buf ++ pcm).drop ((buf ++ pcm).length - cap) ∧
    (WebRTC.audioCallback channels n (WebRTC.ingestSamples cap buf pcm)).1 =
      (WebRTC.ingestSamples cap buf pcm).take n ++
        List.replicate (n - (WebRTC.ingestSamples cap buf pcm).length)
          (List.replicate channels 0) ∧
    (WebRTC.audioCallback channels n (WebRTC.ingestSamples cap buf pcm)).2 =
      (WebRTC.ingestSamples cap buf pcm).drop n := by
  have heq : WebRTC.ingestSamples cap buf pcm =
      (buf ++ pcm).drop ((buf ++ pcm).length - cap) :=
    WebRTC.trimBuffer_eq_drop cap (buf ++ pcm)
  refine ⟨?_, heq, ?_, ?_⟩
  · rw [heq, List.length_drop]
    omega
  · rw [WebRTC.audioCallback_eq]
  · rw [WebRTC.audioCallback_eq]

/-- C9: channel adaptation of a rectangular `c`-channel frame — mono adapted
to stereo duplicates the single channel bit-identically into both outputs
(both in `_ensure_correct_channels` and in the `np.repeat` path of
`AudioPlayerTrack._run`); stereo adapted to mono is the arithmetic mean of the
two channels; in the generic cases channels beyond the target are truncated
and missing channels are zero-padded. -/
theorem C9_channel_adaptation (samples : List (List ℚ)) (c target : ℕ)
    (hne : samples ≠ []) (hrect : ∀ r ∈ samples, r.length = c) :
    (c = 1 →
       AudioPlayer.ensure_correct_channels samples 2 =
         samples.map (fun r => [r.headD 0, r.headD 0]) ∧
       WebRTC.runMonoToStereo samples =
         samples.map (fun r => [r.headD 0, r.headD 0])) ∧
    (c = 2 →
       AudioPlayer.ensure_correct_channels samples 1 =
         samples.map (fun r => [(r.headD 0 + r.tail.headD 0) / 2])) ∧
    (target < c → ¬(c = 2 ∧ target = 1) →
       AudioPlayer.ensure_correct_channels samples target =
         samples.map (fun r => r.take target)) ∧
    (c < target → ¬(c = 1 ∧ target = 2) →
       AudioPlayer.ensure_correct_channels samples target =
         samples.map (fun r => r ++ List.replicate (target - c) 0)) := by
  have hcur : AudioPlayer.currentChannels samples = c := by
    cases samples with
    | nil => exact absurd rfl hne
    | cons r0 rest =>
        show ((r0 :: rest).head?.getD []).length = c
        simp only [List.head?_cons, Option.getD_some]
        exact hrect r0 (by simp)
  refine ⟨?_, ?_, ?_, ?_⟩
  · rintro rfl
    constructor
    · simp only [AudioPlayer.ensure_correct_channels, hcur]
      rw [if_neg (by decide : ¬(1 = 2)), if_pos (⟨trivial, trivial⟩ : True ∧ True)]
      apply List.map_congr_left
      intro r hr
      obtain ⟨x, rfl⟩ : ∃ x, r = [x] := by
        cases r with
        | nil => simpa using hrect [] hr
        | cons a t =>
            cases t with
            | nil => exact ⟨a, rfl⟩
            | cons b t2 => simpa using hrect (a :: b :: t2) hr
      rfl
    · have hc1 : (samples.head?.getD []).length = 1 := hcur
      simp only [WebRTC.runMonoToStereo]
      rw [if_pos hc1]
      apply List.map_congr_left
      intro r hr
      obtain ⟨x, rfl⟩ : ∃ x, r = [x] := by
        cases r with
        | nil => simpa using hrect [] hr
        | cons a t =>
            cases t with
            | nil => exact ⟨a, rfl⟩
            | cons b t2 => simpa using hrect (a :: b :: t2) hr
      rfl
  · rintro rfl
    simp only [AudioPlayer.ensure_correct_channels, hcur]
    rw [if_neg (by decide : ¬(2 = 1)), if_neg (by decide : ¬(2 = 1 ∧ 1 = 2)),
      if_pos (⟨trivial, trivial⟩ : True ∧ True)]
    apply List.map_congr_left
    intro r hr
    obtain ⟨a, b, rfl⟩ : ∃ a b, r = [a, b] := by
      cases r with
      | nil => simpa using hrect [] hr
      | cons a t =>
          cases t with
          | nil => simpa using hrect [a] hr
          | cons b t2 =>
              cases t2 with
              | nil => exact ⟨a, b, rfl⟩
              | cons d t3 => simpa using hrect (a :: b :: d :: t3) hr
    simp [AudioPlayer.rowMean]
  · intro h1 h2
    have hne_t : ¬(c = target) := by omega
    have hn12 : ¬(c = 1 ∧ target = 2) := by
      rintro ⟨rfl, rfl⟩
      omega
    simp only [AudioPlayer.ensure_correct_channels, hcur]
    rw [if_neg hne_t, if_neg hn12, if_neg h2, if_pos h1]
  · intro h1 h2
    have hne_t : ¬(c = target) := by omega
    have hn21 : ¬(c = 2 ∧ target = 1) := by
      rintro ⟨rfl, rfl⟩
      omega
    have hngt : ¬(c > target) := by omega
    simp only [AudioPlayer.ensure_correct_channels, hcur]
    rw [if_neg hne_t, if_neg h2, if_neg hn21, if_neg hngt, if_pos h1]

/-- C9 witness: concrete frames — mono `[[1],[2]]` to stereo, stereo `[[1,3]]`
to mono, 3 channels truncated to 2, and 3 channels padded to 5. -/
theorem C9_witness :
    AudioPlayer.ensure_correct_channels [[(1 : ℚ)], [2]] 2 = [[1, 1], [2, 2]] ∧
    WebRTC.runMonoToStereo [[(1 : ℚ)], [2]] = [[1, 1], [2, 2]] ∧
    AudioPlayer.ensure_correct_channels [[(1 : ℚ), 3]] 1 = [[2]] ∧
    AudioPlayer.ensure_correct_channels [[(1 : ℚ), 2, 3]] 2 = [[1, 2]] ∧
    AudioPlayer.ensure_correct_channels [[(1 : ℚ), 2, 3]] 5 = [[1, 2, 3, 0, 0]] := by
  have h1 := C9_channel_adaptation [[(1 : ℚ)], [2]] 1 2 (by decide) (by decide)
  have h2 := C9_channel_adaptation [[(1 : ℚ), 3]] 2 1 (by decide) (by decide)
  have h3 := C9_channel_adaptation [[(1 : ℚ), 2, 3]] 3 2 (by decide) (by decide)
  have h4 := C9_channel_adaptation [[(1 : ℚ), 2, 3]] 3 5 (by decide) (by decide)
  exact ⟨((h1.1 rfl).1).trans (by simp), ((h1.1 rfl).2).trans (by simp),
         (h2.2.1 rfl).trans (by norm_num),
         (h3.2.2.1 (by decide) (by decide)).trans (by simp),
         (h4.2.2.2 (by decide) (by decide)).trans (by simp)⟩

/-- C7 counterexample: the payload `"[]"` is valid JSON, so no
`Invalid JSON format` reply is sent; handling it raises `AttributeError` at
`message.get("type")` (web_socket.py line 128), *before* the dispatcher's
guarded block, so no `Error processing message` reply is sent either and the
receive loop terminates — contradicting the claim that the loop always
continues with an error reply. -/
theorem C7_counterexample :
    WebSocket.websocket_loop_step WebSocket.okHandlers Rooms.init "u1"
      WebSocket.Incoming.jsonNonDict = (Rooms.init, [], false) := rfl

/-- C7 (amended): a payload that is not valid JSON yields an `error` reply
`Invalid JSON format` and the loop continues; an object message with an
unrecognized `type` yields `Unknown message type: <type>` and the loop
continues; an exception raised inside the dispatcher's guarded block — an
offer/answer/candidate handler raising — yields
`Error processing message: <detail>` and the loop continues; but a valid-JSON
payload that is not an object raises before the guarded block, sends no reply
at all, and terminates the receive loop. -/
theorem C7_loop_error_handling (h : WebSocket.Handlers) (st : Rooms.St)
    (u : String) :
    (WebSocket.websocket_loop_step h st u WebSocket.Incoming.notJson =
       (st, [.send (.errorReply "Invalid JSON format")], true)) ∧
    (∀ m : WebSocket.WsMessage,
       m.type_ ∉ [some "offer", some "answer", some "ice-candidate",
                  some "join-room", some "leave-room", some "ping"] →
       WebSocket.websocket_loop_step h st u (.jsonDict m) =
         (st, [.send (.errorReply
           ("Unknown message type: " ++ WebSocket.typeRepr m.type_))], true)) ∧
    (∀ m rid off e, m.type_ = some "offer" → m.roomId = some rid → rid ≠ "" →
       m.offer = some off → h.offerResult u rid off = .error e →
       WebSocket.websocket_loop_step h st u (.jsonDict m) =
         (st, [.callOffer rid off,
               .send (.errorReply ("Error processing message: " ++ e))], true)) ∧
    (∀ m ans e, m.type_ = some "answer" → m.answer = some ans →
       h.answerResult u ans = .error e →
       WebSocket.websocket_loop_step h st u (.jsonDict m) =
         (st, [.callAnswer ans,
               .send (.errorReply ("Error processing message: " ++ e))], true)) ∧
    (∀ m rid c e, m.type_ = some "ice-candidate" → m.roomId = some rid →
       rid ≠ "" → m.candidate = some c → h.candidateResult rid u c = .error e →
       WebSocket.websocket_loop_step h st u (.jsonDict m) =
         (st, [.callCandidate rid c,
               .send (.errorReply ("Error processing message: " ++ e))], true)) ∧
    (WebSocket.websocket_loop_step h st u WebSocket.Incoming.jsonNonDict =
       (st, [], false)) := by
  refine ⟨rfl, ?_, ?_, ?_, ?_, rfl⟩
  · intro m hnot
    have h1 : ¬(m.type_ = some "offer") := fun hx => hnot (by simp [hx])
    have h2 : ¬(m.type_ = some "answer") := fun hx => hnot (by simp [hx])
    have h3 : ¬(m.type_ = some "ice-candidate") := fun hx => hnot (by simp [hx])
    have h4 : ¬(m.type_ = some "join-room") := fun hx => hnot (by simp [hx])
    have h5 : ¬(m.type_ = some "leave-room") := fun hx => hnot (by simp [hx])
    have h6 : ¬(m.type_ = some "ping") := fun hx => hnot (by simp [hx])
    simp only [WebSocket.websocket_loop_step, WebSocket.handle_websocket_message,
      if_neg h1, if_neg h2, if_neg h3, if_neg h4, if_neg h5, if_neg h6]
  · intro m rid off e ht hr hrne ho he
    simp only [WebSocket.websocket_loop_step, WebSocket.handle_websocket_message,
      ht, hr, ho, if_pos rfl, he, if_neg hrne]
    simp
  · intro m ans e ht ha he
    simp only [WebSocket.websocket_loop_step, WebSocket.handle_websocket_message,
      ht, ha, he]
    simp
  · intro m rid c e ht hr hrne hc he
    simp only [WebSocket.websocket_loop_step, WebSocket.handle_websocket_message,
      ht, hr, hc, he, if_neg hrne]
    simp

/-- C7 witness: concrete loop steps — a non-JSON payload, an object of type
`"bogus"`, and an `answer` whose handler raises `"boom"`; each gets the
documented `error` reply and the loop continues. -/
theorem C7_witness :
    (WebSocket.websocket_loop_step WebSocket.okHandlers Rooms.init "u1"
       WebSocket.Incoming.notJson =
       (Rooms.init, [.send (.errorReply "Invalid JSON format")], true)) ∧
    (WebSocket.websocket_loop_step WebSocket.okHandlers Rooms.init "u1"
       (.jsonDict { type_ := some "bogus", roomId := none, offer := none,
                    answer := none, candidate := none, timestamp := none }) =
       (Rooms.init, [.send (.errorReply "Unknown message type: bogus")], true)) ∧
    (WebSocket.websocket_loop_step WebSocket.failHandlers Rooms.init "u1"
       (.jsonDict { type_ := some "answer", roomId := none, offer := none,
                    answer := some { type_ := "answer", sdp := "v=0" },
                    candidate := none, timestamp := none }) =
       (Rooms.init, [.callAnswer { type_ := "answer", sdp := "v=0" },
                     .send (.errorReply "Error processing message: boom")], true)) := by
  refine ⟨(C7_loop_error_handling WebSocket.okHandlers Rooms.init "u1").1, ?_, ?_⟩
  · exact (C7_loop_error_handling WebSocket.okHandlers Rooms.init "u1").2.1
      { type_ := some "bogus", roomId := none, offer := none,
        answer := none, candidate := none, timestamp := none } (by decide)
  · exact (C7_loop_error_handling WebSocket.failHandlers Rooms.init "u1").2.2.2.1
      { type_ := some "answer", roomId := none, offer := none,
        answer := some { type_ := "answer", sdp := "v=0" },
        candidate := none, timestamp := none }
      { type_ := "answer", sdp := "v=0" } "boom" rfl rfl rfl

/-- C10: an `answer` message whose `answer` field is absent (or falsy), and an
`ice-candidate` message whose `roomId` or `candidate` field is absent (or
falsy), produce no reply and no effect at all and leave the registry state
unchanged; by contrast an `offer` message with a missing `roomId` or `offer`
raises `ValueError`, which surfaces as an
`Error processing message: Missing roomId or offer` reply. -/
theorem C10_silent_field_guards (h : WebSocket.Handlers) (st : Rooms.St)
    (u : String) (m : WebSocket.WsMessage) :
    (m.type_ = some "answer" → m.answer = none →
       WebSocket.handle_websocket_message h st u m = (st, [])) ∧
    (m.type_ = some "ice-candidate" →
       (m.roomId = none ∨ m.roomId = some "" ∨ m.candidate = none) →
       WebSocket.handle_websocket_message h st u m = (st, [])) ∧
    (m.type_ = some "offer" →
       (m.roomId = none ∨ m.roomId = some "" ∨ m.offer = none) →
       WebSocket.handle_websocket_message h st u m =
         (st, [.send (.errorReply
            "Error processing message: Missing roomId or offer")])) := by
  refine ⟨?_, ?_, ?_⟩
  · intro ht ha
    simp only [WebSocket.handle_websocket_message, ht, ha]
    simp
  · intro ht hmiss
    rcases hmiss with hr | hr | hc
    · simp only [WebSocket.handle_websocket_message, ht, hr]
      simp
    · cases hc : m.candidate with
      | none =>
          simp only [WebSocket.handle_websocket_message, ht, hr, hc]
          simp
      | some c =>
          simp only [WebSocket.handle_websocket_message, ht, hr, hc, if_pos rfl]
          simp
    · cases hr : m.roomId with
      | none =>
          simp only [WebSocket.handle_websocket_message, ht, hr, hc]
          simp
      | some rid =>
          simp only [WebSocket.handle_websocket_message, ht, hr, hc]
          simp
  · intro ht hmiss
    rcases hmiss with hr | hr | ho
    · simp only [WebSocket.handle_websocket_message, ht, hr]
      cases ho : m.offer <;> simp [ho]
    · cases ho : m.offer with
      | none =>
          simp only [WebSocket.handle_websocket_message, ht, hr, ho]
          simp
      | some off =>
          simp only [WebSocket.handle_websocket_message, ht, hr, ho, if_pos rfl]
          simp
    · cases hr : m.roomId with
      | none =>
          simp only [WebSocket.handle_websocket_message, ht, hr, ho]
          simp
      | some rid =>
          simp only [WebSocket.handle_websocket_message, ht, hr, ho]
          simp

/-- C10 witness: concrete silent drops — `answer` with no `answer` field,
`ice-candidate` with no `roomId` — versus the `offer` error reply when `offer`
is missing. -/
theorem C10_witness :
    (WebSocket.handle_websocket_message WebSocket.okHandlers Rooms.init "u1"
       { type_ := some "answer", roomId := none, offer := none,
         answer := none, candidate := none, timestamp := none } =
       (Rooms.init, [])) ∧
    (WebSocket.handle_websocket_message WebSocket.okHandlers Rooms.init "u1"
       { type_ := some "ice-candidate", roomId := none, offer := none,
         answer := none,
         candidate := some { candidate := "x", sdpMid := none, sdpMLineIndex := none },
         timestamp := none } =
       (Rooms.init, [])) ∧
    (WebSocket.handle_websocket_message WebSocket.okHandlers Rooms.init "u1"
       { type_ := some "offer", roomId := some "r1", offer := none,
         answer := none, candidate := none, timestamp := none } =
       (Rooms.init, [.send (.errorReply
          "Error processing message: Missing roomId or offer")])) := by
  refine ⟨?_, ?_, ?_⟩
  · exact (C10_silent_field_guards WebSocket.okHandlers Rooms.init "u1"
      { type_ := some "answer", roomId := none, offer := none,
        answer := none, candidate := none, timestamp := none }).1 rfl rfl
  · exact (C10_silent_field_guards WebSocket.okHandlers Rooms.init "u1"
      { type_ := some "ice-candidate", roomId := none, offer := none,
        answer := none,
        candidate := some { candidate := "x", sdpMid := none, sdpMLineIndex := none },
        timestamp := none }).2.1 rfl (Or.inl rfl)
  · exact (C10_silent_field_guards WebSocket.okHandlers Rooms.init "u1"
      { type_ := some "offer", roomId := some "r1", offer := none,
        answer := none, candidate := none, timestamp := none }).2.2 rfl
      (Or.inr (Or.inr rfl))

/-- C4: demonstration of the code bug — in a registry with no room `"r1"`, the
read-only query `others("r1", "p1")` materialises the key via the
`defaultdict` subscript (room.py line 34) and leaves behind a room whose
member set is empty, violating the stated invariant that a room identifier is
present exactly when its member set is non-empty. -/
theorem C4_others_creates_empty_room :
    Rooms.init.peers "r1" = none ∧
    (Rooms.others Rooms.init "r1" "p1").2.peers "r1" = some (∅ : Finset String) ∧
    Rooms.membersOf (Rooms.others Rooms.init "r1" "p1").2 "r1" = ∅ :=
  ⟨rfl, rfl, rfl⟩

/-- C5: over any sequence of `join` calls starting from the empty registry,
`get_peer_room` returns the most recently joined room of each peer, no other
room's member set contains the peer, and re-joining the current room leaves
the registry state literally unchanged. -/
theorem C5_join_sequences (ops : List (String × String)) (p r : String) :
    (Rooms.lastJoinOf ops p = some r →
       Rooms.get_peer_room (Rooms.applyJoins Rooms.init ops) p = some r) ∧
    (Rooms.get_peer_room (Rooms.applyJoins Rooms.init ops) p = some r →
       ∀ r', r' ≠ r → p ∉ Rooms.membersOf (Rooms.applyJoins Rooms.init ops) r') ∧
    (Rooms.get_peer_room (Rooms.applyJoins Rooms.init ops) p = some r →
       Rooms.join (Rooms.applyJoins Rooms.init ops) r p =
         Rooms.applyJoins Rooms.init ops) := by
  have hInv : Rooms.Inv (Rooms.applyJoins Rooms.init ops) :=
    Rooms.Inv_applyJoins ops Rooms.init Rooms.Inv_init
  refine ⟨?_, ?_, ?_⟩
  · intro hl
    rw [Rooms.lastJoinOf_correct]
    exact hl
  · intro hg r' hne hmem
    have hx := (hInv p r').mp hmem
    have hx2 : Rooms.get_peer_room (Rooms.applyJoins Rooms.init ops) p = some r' := hx
    rw [hg] at hx2
    exact hne (Option.some.inj hx2).symm
  · intro hg
    exact Rooms.join_idempotent hInv hg

/-- C5 witness: peer `"p1"` joins `"r1"` then `"r2"`: its room is `"r2"`,
room `"r1"` no longer contains it, and re-joining `"r2"` changes nothing. -/
theorem C5_witness :
    Rooms.lastJoinOf [("r1", "p1"), ("r2", "p1")] "p1" = some "r2" ∧
    Rooms.get_peer_room
      (Rooms.applyJoins Rooms.init [("r1", "p1"), ("r2", "p1")]) "p1" = some "r2" ∧
    "p1" ∉ Rooms.membersOf
      (Rooms.applyJoins Rooms.init [("r1", "p1"), ("r2", "p1")]) "r1" ∧
    Rooms.join (Rooms.applyJoins Rooms.init [("r1", "p1"), ("r2", "p1")]) "r2" "p1" =
      Rooms.applyJoins Rooms.init [("r1", "p1"), ("r2", "p1")] := by
  have h := C5_join_sequences [("r1", "p1"), ("r2", "p1")] "p1" "r2"
  exact ⟨rfl, h.1 rfl, h.2.1 (h.1 rfl) "r1" (by decide), h.2.2 (h.1 rfl)⟩
